import Mathlib

/-!
Verification development for the fossil L1-L2 relayer accumulator core.

The definitions below are a shallow embedding of the Rust sources under
`crates/`:

* `crates/publisher/src/accumulator.rs` (the publisher `AccumulatorBuilder`,
  its `update_mmr_state` and `validate_u256_hex`),
* `crates/host/src/accumulator.rs` (the host `AccumulatorBuilder` and its
  `update_mmr_state`),
* `crates/publisher/src/core/batch_processor.rs` (the `BatchProcessor`),
* `crates/publisher/src/validator/validator.rs` (the `ValidatorBuilder`).

Persistent SQLite tables are embedded as association lists, u64/usize values
as `Nat`, hex strings as `String`, and fallible Rust code as `Except`/`Option`
values.  A Rust panic (division by zero, unchecked integer underflow) is
embedded as a distinguished outcome rather than a value.  External
collaborators (zkVM prover, Keccak-based root computation, header database,
Starknet RPC) are parameters of the embedded functions, universally
quantified in the theorems.
-/

set_option autoImplicit false

/-- First-match association list lookup, embedding both the SQLite
`SELECT ... WHERE key = ?` reads of the `store` crate and `HashMap::get`. -/
def lookupAssoc {α β : Type} [DecidableEq α] : List (α × β) → α → Option β
  | [], _ => none
  | (k, v) :: rest, key => if k = key then some v else lookupAssoc rest key

/-- Insert-or-overwrite association list update, embedding the
`INSERT OR REPLACE` semantics of the store's `set` operations. -/
def setAssoc {α β : Type} [DecidableEq α] : List (α × β) → α → β → List (α × β)
  | [], key, v => [(key, v)]
  | (k, w) :: rest, key, v =>
      if k = key then (key, v) :: rest else (k, w) :: setAssoc rest key v

/-- Decidable equality of `Except` results, used to state and evaluate the
theorems about fallible operations. -/
instance exceptDecidableEq {ε α : Type} [DecidableEq ε] [DecidableEq α] :
    DecidableEq (Except ε α) := fun x y =>
  match x, y with
  | Except.error e, Except.error f =>
      if h : e = f then Decidable.isTrue (by rw [h])
      else Decidable.isFalse (by simp [h])
  | Except.ok a, Except.ok b =>
      if h : a = b then Decidable.isTrue (by rw [h])
      else Decidable.isFalse (by simp [h])
  | Except.error _, Except.ok _ => Decidable.isFalse (fun h => Except.noConfusion h)
  | Except.ok _, Except.error _ => Decidable.isFalse (fun h => Except.noConfusion h)

/-- Number of binary digits of a natural number (fuel-based so that the
kernel can evaluate it). -/
def bitLenGo : Nat → Nat → Nat
  | 0, _ => 0
  | fuel + 1, n => if n = 0 then 0 else bitLenGo fuel (n / 2) + 1

/-- Number of binary digits of `n` (`0` for `n = 0`). -/
def bitLength (n : Nat) : Nat := bitLenGo (n + 1) n

/-- Modelled from the spec: loop body of the classical MMR `find_peaks`
routine of the external `mmr` crate (spec section 3: "Peaks are derivable
from `N` alone (classical MMR peak arithmetic)").  `m` is the current
perfect-mountain size `2^k - 1`, `shift` the element index reached so far;
returns the collected peak indices and the final shift. -/
def findPeaksGo (n : Nat) : Nat → Nat → Nat → List Nat × Nat
  | 0, _, shift => ([], shift)
  | fuel + 1, m, shift =>
      if m = 0 then ([], shift)
      else if m ≤ n - shift then
        let r := findPeaksGo n fuel (m / 2) (shift + m)
        ((shift + m) :: r.1, r.2)
      else findPeaksGo n fuel (m / 2) shift

/-- Modelled from the spec: `find_peaks(elements_count)` of the external
`mmr` crate.  Returns the 1-based element indices of the MMR peaks for an
MMR with `n` elements, or `[]` when `n` is not a valid MMR size. -/
def findPeaks (n : Nat) : List Nat :=
  let r := findPeaksGo n (bitLength n + 1) (2 ^ bitLength n - 1) 0
  if r.2 = n then r.1 else []

/-- Read the hashes stored at the given element indices; `none` if any of
them is missing (a store read error in the Rust code). -/
def collectHashes (hs : List (Nat × String)) : List Nat → Option (List String)
  | [] => some []
  | i :: is =>
      match lookupAssoc hs i, collectHashes hs is with
      | some h, some rest => some (h :: rest)
      | _, _ => none

/-- On-disk state of one batch MMR: the two scalar counters, the
`element index → node hash` table and the `hash → element index` secondary
index (spec section 3). -/
structure MmrStore where
  elementsCount : Nat
  leavesCount : Nat
  hashes : List (Nat × String)
  hashToIndex : List (String × Nat)
deriving DecidableEq, Repr

/-- A freshly initialized batch MMR file (`initialize_mmr` on a new path). -/
def emptyMmrStore : MmrStore := ⟨0, 0, [], []⟩

/-- `mmr.get_peaks(PeaksOptions::default())`: hashes stored at the peak
indices of the current `elements_count`; `none` embeds the store read
error raised when a peak hash is missing. -/
def getPeaks (st : MmrStore) : Option (List String) :=
  collectHashes st.hashes (findPeaks st.elementsCount)

/-- Error enum of `crates/publisher/src/accumulator.rs` (and the error kinds
of the publisher core that `process_batch` surfaces); dependency-failure
variants are collapsed to one constructor each. -/
inductive PubAccumulatorError where
  | invalidStateTransition
  | peaksVerificationError
  | expectedGroth16Proof
  | invalidU256Hex (s : String)
  | emptyHeaders (startBlock endBlock : Nat)
  | storeError
  | starknetHandler
  | proofGeneratorError
deriving DecidableEq, Repr

/-- Error enum of `crates/host/src/accumulator.rs`; `storeError` stands for
the store/MMR dependency errors threaded through `eyre`. -/
inductive HostAccumulatorError where
  | invalidStateTransition
  | peaksVerificationError
  | expectedGroth16Proof
  | storeError
deriving DecidableEq, Repr

/-- Block header as the accumulator sees it: only `number` and `block_hash`
are inspected (spec section 3). -/
structure Header where
  number : Nat
  blockHash : String
deriving DecidableEq, Repr

/-- `MmrState` handed to Starknet (`starknet_handler::MmrState`); the root is
a U256 value. -/
structure MmrState where
  latestBlockNumber : Nat
  rootHash : Nat
  elementsCount : Nat
  leavesCount : Nat
deriving DecidableEq, Repr

/-- Publisher-side `guest_types::GuestOutput` as used by
`crates/publisher/src/accumulator.rs` and `core/batch_processor.rs`. -/
structure GuestOutput where
  finalPeaks : List String
  elementsCount : Nat
  leavesCount : Nat
  allHashes : List (Nat × String)
  rootHash : String
deriving DecidableEq, Repr

/-- Host-side `guest_types::GuestOutput` as used by
`crates/host/src/accumulator.rs`: `appendResults` is the list of
`(element_index, root_hash)` pairs of the guest's `append_results`. -/
structure GuestOutputHost where
  finalPeaks : List String
  elementsCount : Nat
  leavesCount : Nat
  appendResults : List (Nat × String)
deriving DecidableEq, Repr

/-- True for `0-9`, `a-f`, `A-F`: Rust `char::is_ascii_hexdigit`. -/
def isAsciiHexDigit (c : Char) : Bool :=
  (('0' ≤ c && c ≤ '9') || ('a' ≤ c && c ≤ 'f') || ('A' ≤ c && c ≤ 'F'))

/-- True when the string begins with the two characters `0x`
(Rust `str::starts_with("0x")`). -/
def startsWith0x : List Char → Bool
  | a :: b :: _ => a = '0' && b = 'x'
  | _ => false

/-- `validate_u256_hex` of `crates/publisher/src/accumulator.rs`: requires
the `0x` prefix, only ASCII hex digits after it, and at most 64 of them. -/
def validate_u256_hex (hexStr : String) : Except PubAccumulatorError Unit :=
  if startsWith0x hexStr.data = false then
    Except.error (PubAccumulatorError.invalidU256Hex hexStr)
  else
    let hexValue := hexStr.data.drop 2
    if hexValue.all isAsciiHexDigit = false then
      Except.error (PubAccumulatorError.invalidU256Hex hexStr)
    else if 64 < hexValue.length then
      Except.error (PubAccumulatorError.invalidU256Hex hexStr)
    else Except.ok ()

/-- Value of one hex digit, `none` for a non-hex character. -/
def hexDigitVal (c : Char) : Option Nat :=
  if '0' ≤ c && c ≤ '9' then some (c.toNat - 48)
  else if 'a' ≤ c && c ≤ 'f' then some (c.toNat - 87)
  else if 'A' ≤ c && c ≤ 'F' then some (c.toNat - 55)
  else none

/-- Big-endian hex accumulation; `none` on the first non-hex character. -/
def hexToNatGo : List Char → Nat → Option Nat
  | [], acc => some acc
  | c :: rest, acc =>
      match hexDigitVal c with
      | none => none
      | some v => hexToNatGo rest (acc * 16 + v)

/-- Rust `str::trim_start_matches("0x")`: strips every leading `0x`. -/
def trimStartMatches0x : List Char → List Char
  | '0' :: 'x' :: rest => trimStartMatches0x rest
  | s => s

/-- Modelled from the spec: `starknet_handler::u256_from_hex` (the
`starknet-handler` crate is not under `src/`).  Parses a hex string into a
U256 natural number; fails on the empty string, a non-hex character, or
more than 64 digits (spec glossary: "U256: 256-bit unsigned integer ...
at most 64 hex digits"). -/
def u256_from_hex (s : List Char) : Option Nat :=
  match s with
  | [] => none
  | _ => if 64 < s.length then none else hexToNatGo s 0

/-- Write the counters taken from a guest output into the store
(`mmr.elements_count.set` / `mmr.leaves_count.set`). -/
def setCounters (st : MmrStore) (elementsCount leavesCount : Nat) : MmrStore :=
  { st with elementsCount := elementsCount, leavesCount := leavesCount }

/-- Write one `(element index, hash)` pair: the node-hash table write
followed by the `insert_value_index_mapping` secondary-index write. -/
def writeHash (st : MmrStore) (p : Nat × String) : MmrStore :=
  { st with
      hashes := setAssoc st.hashes p.1 p.2,
      hashToIndex := setAssoc st.hashToIndex p.2 p.1 }

/-- `AccumulatorBuilder::update_mmr_state` of
`crates/publisher/src/accumulator.rs`.  `calcRoot` stands for the external
`bag_the_peaks` / `calculate_root_hash` computation of the `mmr` crate.
Returns the Rust function's result together with the on-disk store as left
behind by the call. -/
def publisherUpdateMmrState (calcRoot : MmrStore → String)
    (latestBlockNumber : Nat) (guestOutput : GuestOutput) (st : MmrStore) :
    Except PubAccumulatorError MmrState × MmrStore :=
  if guestOutput.elementsCount < st.elementsCount then
    (Except.error PubAccumulatorError.invalidStateTransition, st)
  else
    let st1 := setCounters st guestOutput.elementsCount guestOutput.leavesCount
    let st2 := guestOutput.allHashes.foldl writeHash st1
    let newMmrRootHash := calcRoot st2
    match validate_u256_hex newMmrRootHash with
    | Except.error e => (Except.error e, st2)
    | Except.ok _ =>
        match u256_from_hex (trimStartMatches0x newMmrRootHash.data) with
        | none => (Except.error PubAccumulatorError.starknetHandler, st2)
        | some root =>
            (Except.ok
              ⟨latestBlockNumber, root, guestOutput.elementsCount,
                guestOutput.leavesCount⟩, st2)

/-- Write one final peak at its `find_peaks` index
(host `update_mmr_state` peak-update loop). -/
def writePeak (st : MmrStore) (p : String × Nat) : MmrStore :=
  { st with hashes := setAssoc st.hashes p.2 p.1 }

/-- `AccumulatorBuilder::update_mmr_state` of `crates/host/src/accumulator.rs`.
`calcRoot` stands for the external `bag_the_peaks` / `calculate_root_hash`
computation.  Counters, `append_results` hashes, and the zipped final peaks
are written eagerly; the stored-peaks comparison runs afterwards, so its
failure leaves the writes in place. -/
def hostUpdateMmrState (calcRoot : MmrStore → String)
    (guestOutput : GuestOutputHost) (st : MmrStore) :
    Except HostAccumulatorError String × MmrStore :=
  if guestOutput.elementsCount < st.elementsCount then
    (Except.error HostAccumulatorError.invalidStateTransition, st)
  else
    let st1 := setCounters st guestOutput.elementsCount guestOutput.leavesCount
    let st2 := guestOutput.appendResults.foldl
      (fun acc p => writeHash acc (p.1, p.2)) st1
    let st3 := (guestOutput.finalPeaks.zip
      (findPeaks guestOutput.elementsCount)).foldl writePeak st2
    match getPeaks st3 with
    | none => (Except.error HostAccumulatorError.storeError, st3)
    | some storedPeaks =>
        if storedPeaks ≠ guestOutput.finalPeaks then
          (Except.error HostAccumulatorError.peaksVerificationError, st3)
        else (Except.ok (calcRoot st3), st3)

/-- `BatchProcessor` of `crates/publisher/src/core/batch_processor.rs`; the
proof generator collaborator is passed to `processBatch` directly. -/
structure BatchProcessor where
  batchSize : Nat
  skipProofVerification : Bool
deriving DecidableEq, Repr

/-- `BatchProcessor::new`: a plain constructor, with no validation of
`batch_size`. -/
def BatchProcessor.new (batchSize : Nat) (skipProofVerification : Bool) :
    BatchProcessor :=
  ⟨batchSize, skipProofVerification⟩

/-- Outcome of running a piece of Rust code that may panic: `divByZero`
embeds the abnormal termination of an unchecked `/ 0` or an unchecked
u64 subtraction underflow. -/
inductive RunOutcome (α : Type) where
  | divByZero
  | value (a : α)
deriving DecidableEq, Repr

/-- `BatchProcessor::calculate_batch_bounds`: `none` embeds the u64
underflow of `batch_start + batch_size - 1` when `batch_size = 0`. -/
def BatchProcessor.calculateBatchBounds (bp : BatchProcessor)
    (batchIndex : Nat) : Option (Nat × Nat) :=
  if batchIndex * bp.batchSize + bp.batchSize = 0 then none
  else some (batchIndex * bp.batchSize,
    batchIndex * bp.batchSize + bp.batchSize - 1)

/-- `BatchProcessor::calculate_start_block`:
`current_end.saturating_sub(current_end % self.batch_size)`. -/
def BatchProcessor.calculateStartBlock (bp : BatchProcessor)
    (currentEnd : Nat) : Nat :=
  currentEnd - currentEnd % bp.batchSize

/-- `guest_types::MMRInput` as built by the publisher batch processor. -/
structure MMRInput where
  initialPeaks : List String
  elementsCount : Nat
  leavesCount : Nat
  newElements : List String
deriving DecidableEq, Repr

/-- `guest_types::CombinedInput` (publisher flavour). -/
structure CombinedInput where
  headers : List Header
  mmrInput : MMRInput
  skipProofVerification : Bool
deriving DecidableEq, Repr

/-- `BatchResult` of the publisher; the opaque proof payload is omitted. -/
structure BatchResult where
  startBlock : Nat
  endBlock : Nat
  newMmrState : MmrState
deriving DecidableEq, Repr

/-- Externally visible side effects of one `process_batch` call, recorded in
program order: a header-store fetch, a prover invocation, and a persistent
MMR state update. -/
inductive PEffect where
  | fetchedHeaders (startBlock endBlock : Nat)
  | generatedProof
  | updatedMmrState
deriving DecidableEq, Repr

/-- Modelled from the spec: `MMRStateManager::update_state` of the publisher
core (`crates/publisher/src/core/mmr_state_manager.rs`, not under `src/`),
following spec section 4.6 steps 1-6 and the section 5 transaction rule
(a failed verification leaves the store unchanged, so the pre-state is
returned on error).  `calcRoot` stands for the external `bag_the_peaks` /
`calculate_root_hash` computation. -/
def mmrStateManagerUpdateState (calcRoot : MmrStore → String)
    (latestBlockNumber : Nat) (guestOutput : GuestOutput) (st : MmrStore) :
    Except PubAccumulatorError (MmrState × MmrStore) :=
  if guestOutput.elementsCount < st.elementsCount then
    Except.error PubAccumulatorError.invalidStateTransition
  else
    let st1 := setCounters st guestOutput.elementsCount guestOutput.leavesCount
    let st2 := guestOutput.allHashes.foldl writeHash st1
    match getPeaks st2 with
    | none => Except.error PubAccumulatorError.storeError
    | some storedPeaks =>
        if storedPeaks ≠ guestOutput.finalPeaks then
          Except.error PubAccumulatorError.peaksVerificationError
        else
          let root := calcRoot st2
          match validate_u256_hex root with
          | Except.error e => Except.error e
          | Except.ok _ =>
              match u256_from_hex (trimStartMatches0x root.data) with
              | none => Except.error PubAccumulatorError.starknetHandler
              | some rootU256 =>
                  Except.ok
                    (⟨latestBlockNumber, rootU256, guestOutput.elementsCount,
                      guestOutput.leavesCount⟩, st2)

/-- `BatchProcessor::process_batch` of
`crates/publisher/src/core/batch_processor.rs`.  `fetch` is the header
database, `prove` the composed `generate_groth16_proof` / `decode_journal`
collaborator, `calcRoot` the external root computation, and `world` the
set of on-disk batch MMR files keyed by batch index.  Returns the Rust
result together with the resulting on-disk world and the recorded
side effects; `RunOutcome.divByZero` embeds the panic of
`start_block / batch_size` when `batch_size = 0`. -/
def BatchProcessor.processBatch (bp : BatchProcessor)
    (fetch : Nat → Nat → List Header)
    (prove : CombinedInput → Except PubAccumulatorError GuestOutput)
    (calcRoot : MmrStore → String)
    (world : List (Nat × MmrStore))
    (startBlock endBlock : Nat) :
    RunOutcome (Except PubAccumulatorError (Option BatchResult) ×
      List (Nat × MmrStore) × List PEffect) :=
  if bp.batchSize = 0 then RunOutcome.divByZero
  else
    let batchIndex := startBlock / bp.batchSize
    let batchEnd := batchIndex * bp.batchSize + bp.batchSize - 1
    let adjustedEndBlock := min endBlock batchEnd
    let opened :=
      match lookupAssoc world batchIndex with
      | some st => (st, world)
      | none => (emptyMmrStore, setAssoc world batchIndex emptyMmrStore)
    let store0 := opened.1
    let world1 := opened.2
    if bp.batchSize ≤ store0.leavesCount then
      RunOutcome.value (Except.ok none, world1, [])
    else
      let headers := fetch startBlock adjustedEndBlock
      if headers.isEmpty then
        RunOutcome.value
          (Except.error
            (PubAccumulatorError.emptyHeaders startBlock adjustedEndBlock),
            world1, [PEffect.fetchedHeaders startBlock adjustedEndBlock])
      else
        match getPeaks store0 with
        | none =>
            RunOutcome.value (Except.error PubAccumulatorError.storeError,
              world1, [PEffect.fetchedHeaders startBlock adjustedEndBlock])
        | some currentPeaks =>
            let newHeaders := headers.map (fun h => h.blockHash)
            let combinedInput : CombinedInput :=
              ⟨headers,
                ⟨currentPeaks, store0.elementsCount, store0.leavesCount,
                  newHeaders⟩,
                bp.skipProofVerification⟩
            match prove combinedInput with
            | Except.error e =>
                RunOutcome.value (Except.error e, world1,
                  [PEffect.fetchedHeaders startBlock adjustedEndBlock,
                    PEffect.generatedProof])
            | Except.ok guestOutput =>
                match mmrStateManagerUpdateState calcRoot adjustedEndBlock
                    guestOutput store0 with
                | Except.error e =>
                    RunOutcome.value (Except.error e, world1,
                      [PEffect.fetchedHeaders startBlock adjustedEndBlock,
                        PEffect.generatedProof])
                | Except.ok (newMmrState, store1) =>
                    RunOutcome.value
                      (Except.ok
                        (some ⟨startBlock, adjustedEndBlock, newMmrState⟩),
                        setAssoc world1 batchIndex store1,
                        [PEffect.fetchedHeaders startBlock adjustedEndBlock,
                          PEffect.generatedProof, PEffect.updatedMmrState])

/-- Proof flavour chosen per batch by the accumulator builders. -/
inductive ProofFlavor where
  | stark
  | groth16
deriving DecidableEq, Repr

/-- Builder state relevant to the proof chain:
`total_batches`, `current_batch` and the length of `previous_proofs`. -/
structure BuilderSt where
  totalBatches : Nat
  currentBatch : Nat
  prevProofs : Nat
deriving DecidableEq, Repr

/-- One processed batch of an accumulator builder run: its block range, the
proof flavour generated, and the number of chained `previous_proofs` the
batch saw when it started. -/
structure BatchStep where
  startBlock : Nat
  endBlock : Nat
  flavor : ProofFlavor
  proofsBefore : Nat
deriving DecidableEq, Repr

/-- Driving loop shared by `AccumulatorBuilder::build_with_num_batches` and
`build_from_finalized` (`crates/publisher/src/accumulator.rs` and
`crates/host/src/accumulator.rs`), on the run in which every batch
succeeds: walk `current_end` downward, stop at block 0 or after `fuel`
batches, pick Groth16 exactly when `current_batch = total_batches - 1`,
and push the `BatchProof` of every STARK batch before the next batch.
Block arithmetic uses `saturating_sub`, which coincides with `Nat`
subtraction. -/
def buildLoop (batchSize : Nat) : Nat → Nat → BuilderSt → List BatchStep
  | 0, _, _ => []
  | fuel + 1, currentEnd, st =>
      if currentEnd = 0 then []
      else
        let startBlock := currentEnd - (batchSize - 1)
        let flavor :=
          if st.currentBatch = st.totalBatches - 1 then ProofFlavor.groth16
          else ProofFlavor.stark
        let newPrev :=
          match flavor with
          | ProofFlavor.stark => st.prevProofs + 1
          | ProofFlavor.groth16 => st.prevProofs
        { startBlock := startBlock, endBlock := currentEnd, flavor := flavor,
          proofsBefore := st.prevProofs } ::
          buildLoop batchSize fuel (startBlock - 1)
            ⟨st.totalBatches, st.currentBatch + 1, newPrev⟩

/-- `AccumulatorBuilder::build_with_num_batches(num_batches)`: a fresh chain
(`current_batch = 0`, empty `previous_proofs`, `total_batches =
num_batches`) run for at most `num_batches` batches from the finalized
block. -/
def buildWithNumBatches (batchSize finalizedBlockNumber numBatches : Nat) :
    List BatchStep :=
  buildLoop batchSize numBatches finalizedBlockNumber ⟨numBatches, 0, 0⟩

/-- Rust u64 subtraction: `none` embeds the underflow panic. -/
def checkedSub (a b : Nat) : Option Nat :=
  if a < b then none else some (a - b)

/-- Rust u64 division: `none` embeds the division-by-zero panic. -/
def checkedDiv (a b : Nat) : Option Nat :=
  if b = 0 then none else some (a / b)

/-- First statement of `AccumulatorBuilder::update_mmr_with_new_headers`
(both `crates/publisher/src/accumulator.rs` and
`crates/host/src/accumulator.rs`):
`total_batches = ((end_block - start_block) / batch_size) + 1` with an
unchecked u64 subtraction and division. -/
def updateMmrWithNewHeadersTotalBatches
    (batchSize startBlock endBlock : Nat) : Option Nat :=
  match checkedSub endBlock startBlock with
  | none => none
  | some d =>
      match checkedDiv d batchSize with
      | none => none
      | some q => some (q + 1)

/-- `store::StoreError` as surfaced by the validator. -/
inductive StoreError where
  | getError
deriving DecidableEq, Repr

/-- `ValidatorError` of the publisher (`crates/publisher/src/errors.rs` as
used by `crates/publisher/src/validator/validator.rs`); roots are U256
values.  `mmrError` collapses the MMR dependency failures. -/
inductive ValidatorError where
  | invalidInput (msg : String)
  | store (e : StoreError)
  | invalidMmrRoot (expected actual : Nat)
  | invalidProofsCount (expected actual : Nat)
  | starknetHandler
  | mmrError
deriving DecidableEq, Repr

/-- Configuration of a `ValidatorBuilder`
(`crates/publisher/src/validator/validator.rs`). -/
structure ValidatorBuilder where
  batchSize : Nat
  skipProof : Bool
deriving DecidableEq, Repr

/-- `ValidatorBuilder::new`: rejects `batch_size = 0` with `InvalidInput`. -/
def ValidatorBuilder.new (batchSize : Nat) (skipProof : Bool) :
    Except ValidatorError ValidatorBuilder :=
  if batchSize = 0 then
    Except.error (ValidatorError.invalidInput "Batch size must be greater than 0")
  else Except.ok ⟨batchSize, skipProof⟩

/-- Externally visible prover invocations of a validator run. -/
inductive VEffect where
  | starkProofGenerated
deriving DecidableEq, Repr

/-- `ValidatorBuilder::initialize_mmrs_for_headers`: group the headers by
`batch_index = number / batch_size`, opening each referenced batch MMR
file once, in first-touch order; a missing file is a store `GetError`. -/
def initializeMmrs (batchSize : Nat) (files : List (Nat × MmrStore)) :
    List Header → List (Nat × MmrStore) →
    Except ValidatorError (List (Nat × MmrStore))
  | [], acc => Except.ok acc
  | h :: rest, acc =>
      let batchIndex := h.number / batchSize
      match lookupAssoc acc batchIndex with
      | some _ => initializeMmrs batchSize files rest acc
      | none =>
          match lookupAssoc files batchIndex with
          | none => Except.error (ValidatorError.store StoreError.getError)
          | some m =>
              initializeMmrs batchSize files rest (acc ++ [(batchIndex, m)])

/-- `ValidatorBuilder::get_onchain_mmr_root`: read the on-chain `MmrState`
root for every batch index; an unavailable state is a Starknet provider
error. -/
def getOnchainRoots (onchain : Nat → Option Nat) :
    List Nat → Except ValidatorError (List Nat)
  | [] => Except.ok []
  | batchIndex :: rest =>
      match onchain batchIndex with
      | none => Except.error ValidatorError.starknetHandler
      | some r =>
          match getOnchainRoots onchain rest with
          | Except.error e => Except.error e
          | Except.ok rs => Except.ok (r :: rs)

/-- `ValidatorBuilder::verify_single_mmr_root` for one `(batch_index, mmr)`
pair: `rootU256` stands for the external `bag_the_peaks` /
`calculate_root_hash` / `u256_from_hex` computation of the local root. -/
def verifySingleMmrRoot (rootU256 : MmrStore → Nat)
    (onchainRootsMap : List (Nat × Nat)) (batchIndex : Nat) (m : MmrStore) :
    Except ValidatorError Unit :=
  match lookupAssoc onchainRootsMap batchIndex with
  | none => Except.error (ValidatorError.invalidInput "Missing onchain MMR root for batch")
  | some onchainRoot =>
      if onchainRoot ≠ rootU256 m then
        Except.error (ValidatorError.invalidMmrRoot onchainRoot (rootU256 m))
      else Except.ok ()

/-- Per-batch loop of `ValidatorBuilder::verify_mmr_roots`. -/
def verifyRootsLoop (rootU256 : MmrStore → Nat)
    (onchainRootsMap : List (Nat × Nat)) :
    List (Nat × MmrStore) → Except ValidatorError Unit
  | [] => Except.ok ()
  | (batchIndex, m) :: rest =>
      match verifySingleMmrRoot rootU256 onchainRootsMap batchIndex m with
      | Except.error e => Except.error e
      | Except.ok _ => verifyRootsLoop rootU256 onchainRootsMap rest

/-- `ValidatorBuilder::verify_mmr_roots`: fetch the on-chain roots for all
touched batch indexes, then compare each batch's locally computed root. -/
def verifyMmrRoots (rootU256 : MmrStore → Nat) (onchain : Nat → Option Nat)
    (mmrs : List (Nat × MmrStore)) : Except ValidatorError Unit :=
  match getOnchainRoots onchain (mmrs.map (fun p => p.1)) with
  | Except.error e => Except.error e
  | Except.ok roots =>
      verifyRootsLoop rootU256 ((mmrs.map (fun p => p.1)).zip roots) mmrs

/-- `ValidatorBuilder::collect_block_indexes`: look up every header's element
index in the `hash_to_index` table of its batch MMR; a missing entry (or a
missing batch MMR) is a store `GetError`. -/
def collectBlockIndexes (batchSize : Nat) (mmrs : List (Nat × MmrStore)) :
    List Header → Except ValidatorError (List (Nat × Nat))
  | [] => Except.ok []
  | h :: rest =>
      let batchIndex := h.number / batchSize
      match lookupAssoc mmrs batchIndex with
      | none => Except.error (ValidatorError.store StoreError.getError)
      | some m =>
          match lookupAssoc m.hashToIndex h.blockHash with
          | none => Except.error (ValidatorError.store StoreError.getError)
          | some index =>
              match collectBlockIndexes batchSize mmrs rest with
              | Except.error e => Except.error e
              | Except.ok is => Except.ok ((index, batchIndex) :: is)

/-- `ValidatorBuilder::generate_batch_proof` for one batch: gather the
batch's element indexes and headers, obtain the inclusion proofs
(`getProofs` stands for `mmr.get_proofs`, `none` for its failure), check
the proofs count, build the guest input from the current peaks, and invoke
the prover (`prover` returns the opaque STARK receipt token and is the
only step recorded as an effect). -/
def generateBatchProof (batchSize : Nat)
    (getProofs : MmrStore → List Nat → Option Nat)
    (prover : Nat → Nat)
    (headers : List Header) (blockIndexes : List (Nat × Nat))
    (batchIndex : Nat) (m : MmrStore) :
    Except ValidatorError Nat × List VEffect :=
  let batchBlockIndexes :=
    (blockIndexes.filter (fun p => p.2 = batchIndex)).map (fun p => p.1)
  let batchHeaders :=
    headers.filter (fun h => h.number / batchSize = batchIndex)
  match getProofs m batchBlockIndexes with
  | none => (Except.error (ValidatorError.store StoreError.getError), [])
  | some proofsCount =>
      if batchHeaders.length ≠ proofsCount then
        (Except.error
          (ValidatorError.invalidProofsCount batchHeaders.length proofsCount),
          [])
      else
        match getPeaks m with
        | none => (Except.error ValidatorError.mmrError, [])
        | some _ =>
            (Except.ok (prover batchIndex), [VEffect.starkProofGenerated])

/-- `ValidatorBuilder::generate_proofs_for_batches`: one STARK proof per
touched batch, aborting on the first failure. -/
def generateProofsForBatches (batchSize : Nat)
    (getProofs : MmrStore → List Nat → Option Nat)
    (prover : Nat → Nat)
    (headers : List Header) (blockIndexes : List (Nat × Nat)) :
    List (Nat × MmrStore) → Except ValidatorError (List Nat) × List VEffect
  | [] => (Except.ok [], [])
  | (batchIndex, m) :: rest =>
      match generateBatchProof batchSize getProofs prover headers blockIndexes
          batchIndex m with
      | (Except.error e, eff) => (Except.error e, eff)
      | (Except.ok p, eff) =>
          match generateProofsForBatches batchSize getProofs prover headers
              blockIndexes rest with
          | (Except.error e, eff2) => (Except.error e, eff ++ eff2)
          | (Except.ok ps, eff2) => (Except.ok (p :: ps), eff ++ eff2)

/-- `ValidatorBuilder::validate_blocks_and_extract_fees` of
`crates/publisher/src/validator/validator.rs`.  `headers` is the header
database's answer for the requested block range, `files` the on-disk
batch MMR files, `onchain` the Starknet store reads, `rootU256` the
external local-root computation, `getProofs` and `prover` the inclusion
proof and zkVM collaborators.  Returns the Rust result together with the
recorded prover invocations. -/
def validateBlocksAndExtractFees (vb : ValidatorBuilder)
    (files : List (Nat × MmrStore)) (onchain : Nat → Option Nat)
    (rootU256 : MmrStore → Nat)
    (getProofs : MmrStore → List Nat → Option Nat)
    (prover : Nat → Nat) (headers : List Header) :
    Except ValidatorError (List Nat) × List VEffect :=
  if headers.isEmpty then
    (Except.error (ValidatorError.invalidInput "Headers list cannot be empty"),
      [])
  else
    match initializeMmrs vb.batchSize files headers [] with
    | Except.error e => (Except.error e, [])
    | Except.ok mmrs =>
        let rootsCheck :=
          if vb.skipProof then Except.ok ()
          else verifyMmrRoots rootU256 onchain mmrs
        match rootsCheck with
        | Except.error e => (Except.error e, [])
        | Except.ok _ =>
            match collectBlockIndexes vb.batchSize mmrs headers with
            | Except.error e => (Except.error e, [])
            | Except.ok blockIndexes =>
                generateProofsForBatches vb.batchSize getProofs prover headers
                  blockIndexes mmrs

/-! Helper lemmas shared by several claim theorems. -/

theorem pubUpdate_lt (calcRoot : MmrStore → String) (lb : Nat)
    (g : GuestOutput) (st : MmrStore)
    (h : g.elementsCount < st.elementsCount) :
    publisherUpdateMmrState calcRoot lb g st =
      (Except.error PubAccumulatorError.invalidStateTransition, st) := by
  simp [publisherUpdateMmrState, h]

theorem validate_u256_hex_error_shape (s : String) (e : PubAccumulatorError)
    (h : validate_u256_hex s = Except.error e) :
    e = PubAccumulatorError.invalidU256Hex s := by
  unfold validate_u256_hex at h
  split at h
  · simp_all
  · dsimp only at h
    split at h
    · simp_all
    · split at h <;> simp_all

theorem pubUpdate_ge_no_ist (calcRoot : MmrStore → String) (lb : Nat)
    (g : GuestOutput) (st : MmrStore)
    (h : st.elementsCount ≤ g.elementsCount) :
    (publisherUpdateMmrState calcRoot lb g st).1 ≠
      Except.error PubAccumulatorError.invalidStateTransition := by
  unfold publisherUpdateMmrState
  rw [if_neg (Nat.not_lt.mpr h)]
  dsimp only
  split
  · rename_i e heq
    have hshape := validate_u256_hex_error_shape _ _ heq
    simp [hshape]
  · split <;> simp

theorem pubUpdate_ist_unchanged (calcRoot : MmrStore → String) (lb : Nat)
    (g : GuestOutput) (st : MmrStore)
    (h : (publisherUpdateMmrState calcRoot lb g st).1 =
      Except.error PubAccumulatorError.invalidStateTransition) :
    (publisherUpdateMmrState calcRoot lb g st).2 = st := by
  by_cases hlt : g.elementsCount < st.elementsCount
  · rw [pubUpdate_lt calcRoot lb g st hlt]
  · exact absurd h (pubUpdate_ge_no_ist calcRoot lb g st (Nat.not_lt.mp hlt))

theorem hostUpdate_lt (calcRoot : MmrStore → String)
    (g : GuestOutputHost) (st : MmrStore)
    (h : g.elementsCount < st.elementsCount) :
    hostUpdateMmrState calcRoot g st =
      (Except.error HostAccumulatorError.invalidStateTransition, st) := by
  simp [hostUpdateMmrState, h]

theorem hostUpdate_ge_no_ist (calcRoot : MmrStore → String)
    (g : GuestOutputHost) (st : MmrStore)
    (h : st.elementsCount ≤ g.elementsCount) :
    (hostUpdateMmrState calcRoot g st).1 ≠
      Except.error HostAccumulatorError.invalidStateTransition := by
  unfold hostUpdateMmrState
  rw [if_neg (Nat.not_lt.mpr h)]
  dsimp only
  split
  · simp
  · split <;> simp

theorem hostUpdate_ist_unchanged (calcRoot : MmrStore → String)
    (g : GuestOutputHost) (st : MmrStore)
    (h : (hostUpdateMmrState calcRoot g st).1 =
      Except.error HostAccumulatorError.invalidStateTransition) :
    (hostUpdateMmrState calcRoot g st).2 = st := by
  by_cases hlt : g.elementsCount < st.elementsCount
  · rw [hostUpdate_lt calcRoot g st hlt]
  · exact absurd h (hostUpdate_ge_no_ist calcRoot g st (Nat.not_lt.mp hlt))

/-- C1: for every commit of a guest output, if `guest_output.elements_count`
is strictly below the MMR's current `elements_count` then `update_mmr_state`
(publisher and host variants) returns `InvalidStateTransition` and leaves the
on-disk MMR unchanged; otherwise no `InvalidStateTransition` error is
raised. -/
theorem claimC1_update_mmr_state_monotonicity
    (calcRootP calcRootH : MmrStore → String) (lb : Nat)
    (g : GuestOutput) (gh : GuestOutputHost) (st st' : MmrStore) :
    (g.elementsCount < st.elementsCount →
      publisherUpdateMmrState calcRootP lb g st =
        (Except.error PubAccumulatorError.invalidStateTransition, st)) ∧
    (st.elementsCount ≤ g.elementsCount →
      (publisherUpdateMmrState calcRootP lb g st).1 ≠
        Except.error PubAccumulatorError.invalidStateTransition) ∧
    (gh.elementsCount < st'.elementsCount →
      hostUpdateMmrState calcRootH gh st' =
        (Except.error HostAccumulatorError.invalidStateTransition, st')) ∧
    (st'.elementsCount ≤ gh.elementsCount →
      (hostUpdateMmrState calcRootH gh st').1 ≠
        Except.error HostAccumulatorError.invalidStateTransition) :=
  ⟨pubUpdate_lt calcRootP lb g st, pubUpdate_ge_no_ist calcRootP lb g st,
    hostUpdate_lt calcRootH gh st', hostUpdate_ge_no_ist calcRootH gh st'⟩

/-- Witness for C1 at concrete inputs. -/
theorem claimC1_update_mmr_state_monotonicity_witness :
    publisherUpdateMmrState (fun _ => "0x01") 9 ⟨[], 4, 2, [], ""⟩
        ⟨5, 3, [], []⟩ =
      (Except.error PubAccumulatorError.invalidStateTransition,
        ⟨5, 3, [], []⟩) ∧
    (publisherUpdateMmrState (fun _ => "0x01") 9 ⟨[], 6, 2, [], ""⟩
        ⟨5, 3, [], []⟩).1 ≠
      Except.error PubAccumulatorError.invalidStateTransition ∧
    hostUpdateMmrState (fun _ => "0x01") ⟨[], 4, 2, []⟩ ⟨5, 3, [], []⟩ =
      (Except.error HostAccumulatorError.invalidStateTransition,
        ⟨5, 3, [], []⟩) ∧
    (hostUpdateMmrState (fun _ => "0x01") ⟨[], 6, 2, []⟩ ⟨5, 3, [], []⟩).1 ≠
      Except.error HostAccumulatorError.invalidStateTransition :=
  ⟨(claimC1_update_mmr_state_monotonicity (fun _ => "0x01") (fun _ => "0x01")
      9 ⟨[], 4, 2, [], ""⟩ ⟨[], 4, 2, []⟩ ⟨5, 3, [], []⟩ ⟨5, 3, [], []⟩).1
      (by decide),
    (claimC1_update_mmr_state_monotonicity (fun _ => "0x01") (fun _ => "0x01")
      9 ⟨[], 6, 2, [], ""⟩ ⟨[], 6, 2, []⟩ ⟨5, 3, [], []⟩ ⟨5, 3, [], []⟩).2.1
      (by decide),
    (claimC1_update_mmr_state_monotonicity (fun _ => "0x01") (fun _ => "0x01")
      9 ⟨[], 4, 2, [], ""⟩ ⟨[], 4, 2, []⟩ ⟨5, 3, [], []⟩ ⟨5, 3, [], []⟩).2.2.1
      (by decide),
    (claimC1_update_mmr_state_monotonicity (fun _ => "0x01") (fun _ => "0x01")
      9 ⟨[], 6, 2, [], ""⟩ ⟨[], 6, 2, []⟩ ⟨5, 3, [], []⟩ ⟨5, 3, [], []⟩).2.2.2
      (by decide)⟩

/-- C2 counterexample: the host `update_mmr_state` writes the counters and
node hashes before the stored-peaks comparison, so a commit attempt that
fails with `PeaksVerificationError` leaves a changed on-disk MMR, refuting
the claim that every verification failure leaves the state untouched.
Here an empty MMR receives a guest output with one appended element but an
empty `final_peaks` list. -/
theorem claimC2_counterexample :
    (hostUpdateMmrState (fun _ => "0x01") ⟨[], 1, 1, [(1, "0x0a")]⟩
        ⟨0, 0, [], []⟩).1 =
      Except.error HostAccumulatorError.peaksVerificationError ∧
    (hostUpdateMmrState (fun _ => "0x01") ⟨[], 1, 1, [(1, "0x0a")]⟩
        ⟨0, 0, [], []⟩).2 ≠
      (⟨0, 0, [], []⟩ : MmrStore) := by
  decide

/-- C2 (amended): a commit attempt that fails with `InvalidStateTransition`
leaves the on-disk MMR exactly as it was before the call, in both the
publisher and the host `update_mmr_state`; a `PeaksVerificationError` in
the host variant occurs only after the counter and node-hash writes, which
persist. -/
theorem claimC2_amended_invalid_state_transition_unchanged
    (calcRootP calcRootH : MmrStore → String) (lb : Nat)
    (g : GuestOutput) (gh : GuestOutputHost) (st st' : MmrStore) :
    ((publisherUpdateMmrState calcRootP lb g st).1 =
        Except.error PubAccumulatorError.invalidStateTransition →
      (publisherUpdateMmrState calcRootP lb g st).2 = st) ∧
    ((hostUpdateMmrState calcRootH gh st').1 =
        Except.error HostAccumulatorError.invalidStateTransition →
      (hostUpdateMmrState calcRootH gh st').2 = st') :=
  ⟨pubUpdate_ist_unchanged calcRootP lb g st,
    hostUpdate_ist_unchanged calcRootH gh st'⟩

/-- Witness for the amended C2 at concrete inputs. -/
theorem claimC2_amended_invalid_state_transition_unchanged_witness :
    (publisherUpdateMmrState (fun _ => "0x01") 9 ⟨[], 4, 2, [], ""⟩
        ⟨5, 3, [], []⟩).2 = ⟨5, 3, [], []⟩ ∧
    (hostUpdateMmrState (fun _ => "0x01") ⟨[], 4, 2, []⟩
        ⟨5, 3, [], []⟩).2 = ⟨5, 3, [], []⟩ :=
  ⟨(claimC2_amended_invalid_state_transition_unchanged (fun _ => "0x01")
      (fun _ => "0x01") 9 ⟨[], 4, 2, [], ""⟩ ⟨[], 4, 2, []⟩ ⟨5, 3, [], []⟩
      ⟨5, 3, [], []⟩).1 (by decide),
    (claimC2_amended_invalid_state_transition_unchanged (fun _ => "0x01")
      (fun _ => "0x01") 9 ⟨[], 4, 2, [], ""⟩ ⟨[], 4, 2, []⟩ ⟨5, 3, [], []⟩
      ⟨5, 3, [], []⟩).2 (by decide)⟩

/-- C6 counterexample: `BatchProcessor::calculate_start_block` does not
return `current_end.saturating_sub(batch_size - 1)`: with `batch_size = 10`
and `current_end = 25` it returns `25 - 25 % 10 = 20`, not `25 - 9 = 16`. -/
theorem claimC6_counterexample :
    BatchProcessor.calculateStartBlock ⟨10, false⟩ 25 ≠ 25 - (10 - 1) := by
  decide

/-- C6 (amended): in the accumulator builder loops the start block of the
batch ending at `current_end` is `current_end.saturating_sub(batch_size -
1)`, while `BatchProcessor::calculate_start_block(current_end)` returns
`current_end.saturating_sub(current_end % batch_size)`, the first block of
the aligned batch containing `current_end`, i.e.
`batch_size * (current_end / batch_size)`. -/
theorem claimC6_amended_start_block (bs : Nat) (hbs : 1 ≤ bs) :
    (∀ fuel ce st step, step ∈ buildLoop bs fuel ce st →
      step.startBlock = step.endBlock - (bs - 1)) ∧
    (∀ skipFlag ce,
      BatchProcessor.calculateStartBlock ⟨bs, skipFlag⟩ ce =
        bs * (ce / bs)) := by
  constructor
  · intro fuel
    induction fuel with
    | zero => intro ce st step hstep; simp [buildLoop] at hstep
    | succ fuel ih =>
      intro ce st step hstep
      simp only [buildLoop] at hstep
      by_cases hce : ce = 0
      · simp [hce] at hstep
      · rw [if_neg hce] at hstep
        rcases List.mem_cons.mp hstep with hh | ht
        · subst hh; rfl
        · exact ih _ _ _ ht
  · intro skipFlag ce
    show ce - ce % bs = bs * (ce / bs)
    have hdm := Nat.div_add_mod ce bs
    omega

/-- Witness for the amended C6 at concrete inputs. -/
theorem claimC6_amended_start_block_witness :
    ({ startBlock := 8, endBlock := 11, flavor := ProofFlavor.stark,
        proofsBefore := 0 } : BatchStep).startBlock = 11 - (4 - 1) ∧
    BatchProcessor.calculateStartBlock ⟨10, false⟩ 25 = 10 * (25 / 10) :=
  ⟨(claimC6_amended_start_block 4 (by decide)).1 3 11 ⟨3, 0, 0⟩ _
      (by decide),
    (claimC6_amended_start_block 10 (by decide)).2 false 25⟩

/-- Characterization of the `0x` prefix test. -/
theorem startsWith0x_iff (l : List Char) :
    startsWith0x l = true ↔ ∃ rest, l = '0' :: 'x' :: rest := by
  cases l with
  | nil => simp [startsWith0x]
  | cons a t =>
    cases t with
    | nil => simp [startsWith0x]
    | cons b rest =>
      simp only [startsWith0x, Bool.and_eq_true, decide_eq_true_eq,
        List.cons.injEq]
      constructor
      · rintro ⟨ha, hb⟩
        exact ⟨rest, ha, hb, rfl⟩
      · rintro ⟨r, ha, hb, _⟩
        exact ⟨ha, hb⟩

/-- C7: `validate_u256_hex(s)` succeeds exactly when `s` starts with the
prefix `0x`, every character after the prefix is an ASCII hex digit, and at
most 64 characters follow the prefix. -/
theorem claimC7_validate_u256_hex_iff (s : String) :
    validate_u256_hex s = Except.ok () ↔
      ((∃ rest, s.data = '0' :: 'x' :: rest) ∧
        (∀ c ∈ s.data.drop 2, isAsciiHexDigit c = true) ∧
        (s.data.drop 2).length ≤ 64) := by
  unfold validate_u256_hex
  cases hb : startsWith0x s.data with
  | false =>
      have hpre : ¬ ∃ rest, s.data = '0' :: 'x' :: rest := by
        rw [← startsWith0x_iff]; simp [hb]
      rw [if_pos rfl]
      simp [hpre]
  | true =>
      have hpre : ∃ rest, s.data = '0' :: 'x' :: rest :=
        (startsWith0x_iff s.data).mp hb
      rw [if_neg (by simp)]
      dsimp only
      cases ha : (s.data.drop 2).all isAsciiHexDigit with
      | false =>
          have hhex : ¬ ∀ c ∈ s.data.drop 2, isAsciiHexDigit c = true := by
            rw [← List.all_eq_true]; simp [ha]
          rw [if_pos rfl]
          simp [hhex]
      | true =>
          have hhex : ∀ c ∈ s.data.drop 2, isAsciiHexDigit c = true :=
            List.all_eq_true.mp ha
          rw [if_neg (by simp)]
          by_cases hl : 64 < (s.data.drop 2).length
          · rw [if_pos hl]
            constructor
            · intro h; exact Except.noConfusion h
            · rintro ⟨_, _, hc⟩; exact absurd hl (Nat.not_lt.mpr hc)
          · rw [if_neg hl]
            constructor
            · intro _; exact ⟨hpre, hhex, Nat.not_lt.mp hl⟩
            · intro _; rfl

/-- C9: `BatchProcessor::new` accepts `batch_size = 0` without validation;
`process_batch` then terminates abnormally with the division by zero in
`batch_index = start_block / batch_size` (and `calculate_batch_bounds`
underflows), while `ValidatorBuilder::new` rejects `batch_size = 0` with
`InvalidInput`. -/
theorem claimC9_zero_batch_size :
    (∀ skipFlag, (BatchProcessor.new 0 skipFlag).batchSize = 0) ∧
    (∀ skipFlag fetch prove calcRoot world startBlock endBlock,
      (BatchProcessor.new 0 skipFlag).processBatch fetch prove calcRoot world
        startBlock endBlock = RunOutcome.divByZero) ∧
    (∀ skipFlag batchIndex,
      (BatchProcessor.new 0 skipFlag).calculateBatchBounds batchIndex =
        none) ∧
    (∀ skipFlag, ValidatorBuilder.new 0 skipFlag =
      Except.error
        (ValidatorError.invalidInput "Batch size must be greater than 0")) := by
  refine ⟨fun _ => rfl, fun skipFlag fetch prove calcRoot world s e => ?_,
    fun skipFlag bi => ?_, fun _ => rfl⟩
  · simp [BatchProcessor.processBatch, BatchProcessor.new]
  · simp [BatchProcessor.calculateBatchBounds, BatchProcessor.new]

/-- C10: `update_mmr_with_new_headers` computes `total_batches` as
`((end_block - start_block) / batch_size) + 1` with an unchecked u64
subtraction, so every call with `start_block > end_block` terminates
abnormally on the underflow instead of returning an error. -/
theorem claimC10_update_mmr_total_batches (batchSize startBlock endBlock : Nat) :
    (endBlock < startBlock →
      updateMmrWithNewHeadersTotalBatches batchSize startBlock endBlock =
        none) ∧
    (startBlock ≤ endBlock → 0 < batchSize →
      updateMmrWithNewHeadersTotalBatches batchSize startBlock endBlock =
        some ((endBlock - startBlock) / batchSize + 1)) := by
  constructor
  · intro h
    simp [updateMmrWithNewHeadersTotalBatches, checkedSub, h]
  · intro h hbs
    simp [updateMmrWithNewHeadersTotalBatches, checkedSub, checkedDiv,
      Nat.not_lt.mpr h, Nat.pos_iff_ne_zero.mp hbs]

/-- Witness for C10 at concrete inputs. -/
theorem claimC10_update_mmr_total_batches_witness :
    updateMmrWithNewHeadersTotalBatches 4 5 3 = none ∧
    updateMmrWithNewHeadersTotalBatches 4 0 7 = some ((7 - 0) / 4 + 1) :=
  ⟨(claimC10_update_mmr_total_batches 4 5 3).1 (by decide),
    (claimC10_update_mmr_total_batches 4 0 7).2 (by decide) (by decide)⟩

/-- C4: for a batch whose stored `leaves_count` is at least `batch_size`,
`BatchProcessor::process_batch` returns `None` and leaves the world
untouched: no header fetch, no proof generation, no MMR write. -/
theorem claimC4_process_batch_idempotent_skip (bp : BatchProcessor)
    (fetch : Nat → Nat → List Header)
    (prove : CombinedInput → Except PubAccumulatorError GuestOutput)
    (calcRoot : MmrStore → String) (world : List (Nat × MmrStore))
    (startBlock endBlock : Nat) (st : MmrStore)
    (hbs : 0 < bp.batchSize)
    (hst : lookupAssoc world (startBlock / bp.batchSize) = some st)
    (hfull : bp.batchSize ≤ st.leavesCount) :
    bp.processBatch fetch prove calcRoot world startBlock endBlock =
      RunOutcome.value (Except.ok none, world, []) := by
  unfold BatchProcessor.processBatch
  rw [if_neg (Nat.pos_iff_ne_zero.mp hbs)]
  dsimp only
  rw [hst]
  dsimp only
  rw [if_pos hfull]

/-- Witness for C4 at concrete inputs. -/
theorem claimC4_process_batch_idempotent_skip_witness :
    BatchProcessor.processBatch ⟨4, false⟩ (fun _ _ => [])
      (fun _ => Except.error PubAccumulatorError.proofGeneratorError)
      (fun _ => "0x01") [(2, ⟨7, 4, [], []⟩)] 8 11 =
      RunOutcome.value (Except.ok none, [(2, ⟨7, 4, [], []⟩)], []) :=
  claimC4_process_batch_idempotent_skip ⟨4, false⟩ (fun _ _ => [])
    (fun _ => Except.error PubAccumulatorError.proofGeneratorError)
    (fun _ => "0x01") [(2, ⟨7, 4, [], []⟩)] 8 11 ⟨7, 4, [], []⟩
    (by decide) (by decide) (by decide)

/-- Flavour and chained-proof count of every step of a builder run: starting
from `current_batch = c` with `p` chained proofs, and staying within the
`total_batches = t` budget, step `i` is Groth16 exactly when
`c + i = t - 1` and sees `p + i` previous proofs. -/
theorem buildLoop_map_spec (bs : Nat) : ∀ (fuel ce t c p : Nat),
    c + (buildLoop bs fuel ce ⟨t, c, p⟩).length ≤ t →
    (buildLoop bs fuel ce ⟨t, c, p⟩).map
        (fun s => (s.flavor, s.proofsBefore)) =
      (List.range (buildLoop bs fuel ce ⟨t, c, p⟩).length).map
        (fun i =>
          (if c + i = t - 1 then ProofFlavor.groth16 else ProofFlavor.stark,
            p + i)) := by
  intro fuel
  induction fuel with
  | zero => intro ce t c p _; simp [buildLoop]
  | succ fuel ih =>
    intro ce t c p h
    by_cases hce : ce = 0
    · simp [buildLoop, hce]
    · simp only [buildLoop, if_neg hce] at h ⊢
      dsimp only at h ⊢
      by_cases hc : c = t - 1
      · rw [if_pos hc] at h ⊢
        dsimp only at h ⊢
        simp only [List.length_cons] at h
        have hlen :
            (buildLoop bs fuel (ce - (bs - 1) - 1) ⟨t, c + 1, p⟩).length = 0 := by
          omega
        have htail : buildLoop bs fuel (ce - (bs - 1) - 1) ⟨t, c + 1, p⟩ = [] :=
          List.length_eq_zero.mp hlen
        rw [htail]
        simp [hc, List.range_succ]
      · rw [if_neg hc] at h ⊢
        dsimp only at h ⊢
        simp only [List.length_cons] at h
        have h' : (c + 1) +
            (buildLoop bs fuel (ce - (bs - 1) - 1) ⟨t, c + 1, p + 1⟩).length ≤ t := by
          omega
        have iha := ih (ce - (bs - 1) - 1) t (c + 1) (p + 1) h'
        simp only [List.map_cons, List.length_cons, iha,
          List.range_succ_eq_map, List.map_map]
        congr 1
        · simp [hc]
        · apply List.map_congr_left
          intro i _
          have h1 : c + 1 + i = c + (i + 1) := by omega
          have h2 : p + 1 + i = p + (i + 1) := by omega
          simp only [Function.comp_apply, h1, h2, Nat.succ_eq_add_one]

/-- C3: in a builder run that processes `n ≥ 1` batches from a fresh chain
(`build_with_num_batches(n)` or `build_from_finalized` with `n` total
batches; the loop `buildLoop` with `total_batches = n`), the batch flavours
are Groth16 exactly at `current_batch = n - 1`, exactly one Groth16 proof is
emitted, and batch `i` starts with `i` chained previous proofs, so every
STARK `BatchProof` is appended before the next batch is processed. -/
theorem claimC3_chain_discipline (bs fin fuel n : Nat) (hn : 1 ≤ n)
    (hlen : (buildLoop bs fuel fin ⟨n, 0, 0⟩).length = n) :
    ((buildLoop bs fuel fin ⟨n, 0, 0⟩).map (fun s => s.flavor) =
      (List.range n).map
        (fun i => if i = n - 1 then ProofFlavor.groth16 else ProofFlavor.stark)) ∧
    (((buildLoop bs fuel fin ⟨n, 0, 0⟩).map (fun s => s.flavor)).filter
        (fun f => decide (f = ProofFlavor.groth16)) = [ProofFlavor.groth16]) ∧
    ((buildLoop bs fuel fin ⟨n, 0, 0⟩).map (fun s => s.proofsBefore) =
      List.range n) := by
  have hmap := buildLoop_map_spec bs fuel fin n 0 0 (by rw [hlen]; omega)
  have hflav : (buildLoop bs fuel fin ⟨n, 0, 0⟩).map (fun s => s.flavor) =
      (List.range n).map
        (fun i => if i = n - 1 then ProofFlavor.groth16 else ProofFlavor.stark) := by
    have h2 := congrArg (List.map Prod.fst) hmap
    rw [List.map_map, List.map_map, hlen] at h2
    simpa using h2
  refine ⟨hflav, ?_, ?_⟩
  · rw [hflav, List.filter_map]
    have hsel : (List.range n).filter
        ((fun f => decide (f = ProofFlavor.groth16)) ∘
          (fun i => if i = n - 1 then ProofFlavor.groth16 else ProofFlavor.stark)) =
        [n - 1] := by
      cases n with
      | zero => omega
      | succ m =>
          rw [List.range_succ, List.filter_append]
          have hnil : (List.range m).filter
              ((fun f => decide (f = ProofFlavor.groth16)) ∘
                (fun i => if i = m + 1 - 1 then ProofFlavor.groth16
                  else ProofFlavor.stark)) = [] := by
            refine List.filter_eq_nil_iff.mpr (fun a ha => ?_)
            have halt : a < m := List.mem_range.mp ha
            simp [Function.comp, Nat.ne_of_lt halt]
          rw [hnil]
          simp [Function.comp]
    rw [hsel]
    simp
  · have h3 := congrArg (List.map Prod.snd) hmap
    rw [List.map_map, List.map_map, hlen] at h3
    simpa [Function.comp_def] using h3

/-- Witness for C3: three batches from finalized block 11 with batch size 4. -/
theorem claimC3_chain_discipline_witness :
    ((buildLoop 4 3 11 ⟨3, 0, 0⟩).map (fun s => s.flavor) =
      (List.range 3).map
        (fun i => if i = 3 - 1 then ProofFlavor.groth16 else ProofFlavor.stark)) ∧
    (((buildLoop 4 3 11 ⟨3, 0, 0⟩).map (fun s => s.flavor)).filter
        (fun f => decide (f = ProofFlavor.groth16)) = [ProofFlavor.groth16]) ∧
    ((buildLoop 4 3 11 ⟨3, 0, 0⟩).map (fun s => s.proofsBefore) =
      List.range 3) :=
  claimC3_chain_discipline 4 11 3 3 (by decide) (by decide)

theorem lookupAssoc_eq_none {α β : Type} [DecidableEq α] :
    ∀ (l : List (α × β)) (k : α),
      lookupAssoc l k = none ↔ k ∉ l.map Prod.fst := by
  intro l
  induction l with
  | nil => intro k; simp [lookupAssoc]
  | cons hd tl ih =>
      intro k
      rcases hd with ⟨a, b⟩
      by_cases hk : a = k
      · subst hk; simp [lookupAssoc]
      · simp only [lookupAssoc, if_neg hk, List.map_cons, List.mem_cons]
        rw [ih k]
        constructor
        · intro hnot hmem
          rcases hmem with heq | hmem
          · exact hk heq.symm
          · exact hnot hmem
        · intro hnot hmem
          exact hnot (Or.inr hmem)

theorem initializeMmrs_keys_nodup (batchSize : Nat)
    (files : List (Nat × MmrStore)) :
    ∀ (hs : List Header) (acc out : List (Nat × MmrStore)),
      initializeMmrs batchSize files hs acc = Except.ok out →
      (acc.map Prod.fst).Nodup → (out.map Prod.fst).Nodup := by
  intro hs
  induction hs with
  | nil =>
      intro acc out hok hnd
      simp only [initializeMmrs] at hok
      cases hok
      exact hnd
  | cons h rest ih =>
      intro acc out hok hnd
      simp only [initializeMmrs] at hok
      cases hacc : lookupAssoc acc (h.number / batchSize) with
      | some m => rw [hacc] at hok; exact ih acc out hok hnd
      | none =>
          rw [hacc] at hok
          cases hfile : lookupAssoc files (h.number / batchSize) with
          | none => rw [hfile] at hok; exact Except.noConfusion hok
          | some m =>
              rw [hfile] at hok
              refine ih _ out hok ?_
              rw [List.map_append]
              rw [List.nodup_append]
              refine ⟨hnd, List.nodup_singleton _, ?_⟩
              intro a ha hb
              simp only [List.map_cons, List.map_nil, List.mem_singleton] at hb
              subst hb
              exact (lookupAssoc_eq_none acc (h.number / batchSize)).mp hacc ha

theorem getOnchainRoots_of_isSome (onchain : Nat → Option Nat) :
    ∀ (l : List Nat), (∀ bi ∈ l, (onchain bi).isSome) →
      getOnchainRoots onchain l =
        Except.ok (l.map (fun bi => (onchain bi).getD 0)) := by
  intro l
  induction l with
  | nil => intro _; simp [getOnchainRoots]
  | cons a rest ih =>
      intro hav
      have ha : (onchain a).isSome := hav a (List.mem_cons_self a rest)
      rcases Option.isSome_iff_exists.mp ha with ⟨r, hr⟩
      have hrest := ih (fun bi hbi => hav bi (List.mem_cons_of_mem a hbi))
      simp [getOnchainRoots, hr, hrest]

theorem lookupAssoc_zip_map (f : Nat → Nat) :
    ∀ (l : List Nat) (bi : Nat), l.Nodup → bi ∈ l →
      lookupAssoc (l.zip (l.map f)) bi = some (f bi) := by
  intro l
  induction l with
  | nil => intro bi _ hb; exact absurd hb (List.not_mem_nil bi)
  | cons a rest ih =>
      intro bi hnd hb
      simp only [List.map_cons, List.zip_cons_cons, lookupAssoc]
      by_cases hab : a = bi
      · subst hab; simp
      · rw [if_neg hab]
        rcases List.mem_cons.mp hb with heq | hmem
        · exact absurd heq.symm hab
        · exact ih bi (List.Nodup.of_cons hnd) hmem

theorem verifyRootsLoop_mismatch (rootU256 : MmrStore → Nat)
    (onchainRootsMap : List (Nat × Nat)) (f : Nat → Nat) :
    ∀ (mmrs : List (Nat × MmrStore)),
      (∀ p ∈ mmrs, lookupAssoc onchainRootsMap p.1 = some (f p.1)) →
      (∃ p ∈ mmrs, f p.1 ≠ rootU256 p.2) →
      ∃ p ∈ mmrs, f p.1 ≠ rootU256 p.2 ∧
        verifyRootsLoop rootU256 onchainRootsMap mmrs =
          Except.error
            (ValidatorError.invalidMmrRoot (f p.1) (rootU256 p.2)) := by
  intro mmrs
  induction mmrs with
  | nil =>
      intro _ hmis
      rcases hmis with ⟨p, hp, _⟩
      exact absurd hp (List.not_mem_nil p)
  | cons hd rest ih =>
      intro hall hmis
      rcases hd with ⟨bi, m⟩
      have hl : lookupAssoc onchainRootsMap bi = some (f bi) :=
        hall ⟨bi, m⟩ (List.mem_cons_self _ _)
      by_cases hm : f bi = rootU256 m
      · have hok : verifySingleMmrRoot rootU256 onchainRootsMap bi m =
            Except.ok () := by
          simp [verifySingleMmrRoot, hl, hm]
        have hmis' : ∃ p ∈ rest, f p.1 ≠ rootU256 p.2 := by
          rcases hmis with ⟨p, hp, hne⟩
          rcases List.mem_cons.mp hp with heq | hmem
          · subst heq; exact absurd hm hne
          · exact ⟨p, hmem, hne⟩
        have hall' : ∀ p ∈ rest, lookupAssoc onchainRootsMap p.1 = some (f p.1) :=
          fun p hp => hall p (List.mem_cons_of_mem _ hp)
        rcases ih hall' hmis' with ⟨p, hp, hne, hloop⟩
        refine ⟨p, List.mem_cons_of_mem _ hp, hne, ?_⟩
        simp [verifyRootsLoop, hok, hloop]
      · refine ⟨⟨bi, m⟩, List.mem_cons_self _ _, hm, ?_⟩
        simp [verifyRootsLoop, verifySingleMmrRoot, hl, hm]

/-- C5: with `skip_proof = false`, if some touched batch's locally computed
root differs from the on-chain root read for the same batch index, then
`validate_blocks_and_extract_fees` fails with `InvalidMmrRoot` carrying
`expected` = the on-chain root and `actual` = the local root of a
mismatching batch, and no proof is generated (the prover effect list is
empty: the root check runs before any proof generation). -/
theorem claimC5_invalid_mmr_root (vb : ValidatorBuilder)
    (files : List (Nat × MmrStore)) (onchain : Nat → Option Nat)
    (rootU256 : MmrStore → Nat) (getProofs : MmrStore → List Nat → Option Nat)
    (prover : Nat → Nat) (headers : List Header)
    (mmrs : List (Nat × MmrStore))
    (hne : headers ≠ [])
    (hskip : vb.skipProof = false)
    (hinit : initializeMmrs vb.batchSize files headers [] = Except.ok mmrs)
    (hav : ∀ p ∈ mmrs, (onchain p.1).isSome)
    (hmis : ∃ p ∈ mmrs, onchain p.1 ≠ some (rootU256 p.2)) :
    ∃ p ∈ mmrs, ∃ expected, onchain p.1 = some expected ∧
      expected ≠ rootU256 p.2 ∧
      validateBlocksAndExtractFees vb files onchain rootU256 getProofs prover
          headers =
        (Except.error (ValidatorError.invalidMmrRoot expected (rootU256 p.2)),
          []) := by
  have hbLkeys : ∀ bi ∈ mmrs.map Prod.fst, (onchain bi).isSome := by
    intro bi hbi
    rcases List.mem_map.mp hbi with ⟨p, hp, hpe⟩
    exact hpe ▸ hav p hp
  have hroots := getOnchainRoots_of_isSome onchain (mmrs.map Prod.fst) hbLkeys
  have hnd := initializeMmrs_keys_nodup vb.batchSize files headers [] mmrs
    hinit (by simp)
  have hlookup : ∀ p ∈ mmrs,
      lookupAssoc ((mmrs.map Prod.fst).zip
          ((mmrs.map Prod.fst).map (fun bi => (onchain bi).getD 0))) p.1 =
        some ((fun bi => (onchain bi).getD 0) p.1) := by
    intro p hp
    exact lookupAssoc_zip_map (fun bi => (onchain bi).getD 0)
      (mmrs.map Prod.fst) p.1 hnd (List.mem_map_of_mem Prod.fst hp)
  have hmis' : ∃ p ∈ mmrs,
      (fun bi => (onchain bi).getD 0) p.1 ≠ rootU256 p.2 := by
    rcases hmis with ⟨p, hp, hnem⟩
    refine ⟨p, hp, ?_⟩
    rcases Option.isSome_iff_exists.mp (hav p hp) with ⟨e, he⟩
    intro hcontra
    apply hnem
    rw [he]
    have hfe : (fun bi => (onchain bi).getD 0) p.1 = e := by simp [he]
    rw [← hcontra, hfe]
  rcases verifyRootsLoop_mismatch rootU256
    ((mmrs.map Prod.fst).zip
      ((mmrs.map Prod.fst).map (fun bi => (onchain bi).getD 0)))
    (fun bi => (onchain bi).getD 0) mmrs hlookup hmis' with
    ⟨p, hp, hne2, hloop⟩
  rcases Option.isSome_iff_exists.mp (hav p hp) with ⟨e, he⟩
  have hfe : (fun bi => (onchain bi).getD 0) p.1 = e := by simp [he]
  refine ⟨p, hp, e, he, by rw [← hfe]; exact hne2, ?_⟩
  unfold validateBlocksAndExtractFees
  rw [if_neg (by simp [hne])]
  rw [hinit]
  dsimp only
  rw [hskip]
  simp only [Bool.false_eq_true, if_false]
  unfold verifyMmrRoots
  rw [hroots]
  dsimp only
  have hzipeq : (List.map (fun q : Nat × MmrStore => q.1) mmrs) =
      List.map Prod.fst mmrs := rfl
  rw [hzipeq, hloop]
  simp [he]

/-- Witness for C5: one batch of size 1 whose local root 7 differs from the
on-chain root 5. -/
theorem claimC5_invalid_mmr_root_witness :
    ∃ p ∈ [(0, (⟨1, 1, [(1, "0xaa")], [("0xaa", 1)]⟩ : MmrStore))],
      ∃ expected,
        (fun i => if i = 0 then some 5 else none) p.1 = some expected ∧
        expected ≠ (fun _ : MmrStore => 7) p.2 ∧
        validateBlocksAndExtractFees ⟨1, false⟩
            [(0, ⟨1, 1, [(1, "0xaa")], [("0xaa", 1)]⟩)]
            (fun i => if i = 0 then some 5 else none) (fun _ => 7)
            (fun _ is => some is.length) (fun b => b) [⟨0, "0xaa"⟩] =
          (Except.error (ValidatorError.invalidMmrRoot expected
            ((fun _ : MmrStore => 7) p.2)), []) :=
  claimC5_invalid_mmr_root ⟨1, false⟩
    [(0, ⟨1, 1, [(1, "0xaa")], [("0xaa", 1)]⟩)]
    (fun i => if i = 0 then some 5 else none) (fun _ => 7)
    (fun _ is => some is.length) (fun b => b) [⟨0, "0xaa"⟩]
    [(0, ⟨1, 1, [(1, "0xaa")], [("0xaa", 1)]⟩)]
    (by decide) rfl (by decide) (by decide) (by decide)

/-- Every failure of `collect_block_indexes` is the store `GetError`. -/
theorem collectBlockIndexes_shape (batchSize : Nat)
    (mmrs : List (Nat × MmrStore)) :
    ∀ hs : List Header,
      (∃ v, collectBlockIndexes batchSize mmrs hs = Except.ok v) ∨
      collectBlockIndexes batchSize mmrs hs =
        Except.error (ValidatorError.store StoreError.getError) := by
  intro hs
  induction hs with
  | nil => exact Or.inl ⟨[], rfl⟩
  | cons h rest ih =>
      simp only [collectBlockIndexes]
      cases hm : lookupAssoc mmrs (h.number / batchSize) with
      | none => exact Or.inr rfl
      | some m =>
          dsimp only
          cases hi : lookupAssoc m.hashToIndex h.blockHash with
          | none => exact Or.inr rfl
          | some idx =>
              dsimp only
              rcases ih with ⟨v, hv⟩ | herr
              · exact Or.inl ⟨(idx, h.number / batchSize) :: v, by rw [hv]⟩
              · exact Or.inr (by rw [herr])

/-- A successful `collect_block_indexes` finds every header's element index
in the `hash_to_index` table of its batch MMR. -/
theorem collectBlockIndexes_ok_mem (batchSize : Nat)
    (mmrs : List (Nat × MmrStore)) :
    ∀ (hs : List Header) (v : List (Nat × Nat)),
      collectBlockIndexes batchSize mmrs hs = Except.ok v →
      ∀ h ∈ hs, ∃ m idx,
        lookupAssoc mmrs (h.number / batchSize) = some m ∧
        lookupAssoc m.hashToIndex h.blockHash = some idx := by
  intro hs
  induction hs with
  | nil => intro v _ h hmem; exact absurd hmem (List.not_mem_nil h)
  | cons hd rest ih =>
      intro v hok h hmem
      simp only [collectBlockIndexes] at hok
      cases hm : lookupAssoc mmrs (hd.number / batchSize) with
      | none => rw [hm] at hok; exact Except.noConfusion hok
      | some m =>
          rw [hm] at hok
          dsimp only at hok
          cases hi : lookupAssoc m.hashToIndex hd.blockHash with
          | none => rw [hi] at hok; exact Except.noConfusion hok
          | some idx =>
              rw [hi] at hok
              dsimp only at hok
              rcases List.mem_cons.mp hmem with heq | hmem2
              · subst heq; exact ⟨m, idx, hm, hi⟩
              · cases hrest : collectBlockIndexes batchSize mmrs rest with
                | error e =>
                    rw [hrest] at hok
                    exact Except.noConfusion hok
                | ok is => exact ih is hrest h hmem2

/-- C8: if some header's `block_hash` has no entry in the `hash_to_index`
secondary index of its batch MMR, the validator fails before generating any
proof, surfacing the store `GetError` raised at the element-index lookup
(the spec's `MissingElementIndex` failure kind): the result is that error
and the prover effect list is empty. -/
theorem claimC8_missing_element_index (vb : ValidatorBuilder)
    (files : List (Nat × MmrStore)) (onchain : Nat → Option Nat)
    (rootU256 : MmrStore → Nat) (getProofs : MmrStore → List Nat → Option Nat)
    (prover : Nat → Nat) (headers : List Header)
    (mmrs : List (Nat × MmrStore)) (h : Header) (m : MmrStore)
    (hne : headers ≠ [])
    (hskip : vb.skipProof = true)
    (hinit : initializeMmrs vb.batchSize files headers [] = Except.ok mmrs)
    (hmem : h ∈ headers)
    (hmmr : lookupAssoc mmrs (h.number / vb.batchSize) = some m)
    (hmiss : lookupAssoc m.hashToIndex h.blockHash = none) :
    validateBlocksAndExtractFees vb files onchain rootU256 getProofs prover
        headers =
      (Except.error (ValidatorError.store StoreError.getError), []) := by
  have hcol : collectBlockIndexes vb.batchSize mmrs headers =
      Except.error (ValidatorError.store StoreError.getError) := by
    rcases collectBlockIndexes_shape vb.batchSize mmrs headers with
      ⟨v, hv⟩ | herr
    · exfalso
      rcases collectBlockIndexes_ok_mem vb.batchSize mmrs headers v hv h hmem
        with ⟨m2, idx, hm2, hi2⟩
      rw [hmmr] at hm2
      have hm2e := Option.some.inj hm2
      subst hm2e
      rw [hmiss] at hi2
      exact Option.noConfusion hi2
    · exact herr
  unfold validateBlocksAndExtractFees
  rw [if_neg (by simp [hne])]
  rw [hinit]
  dsimp only
  rw [hskip]
  simp only [if_true]
  rw [hcol]

/-- Witness for C8: a header whose hash has no `hash_to_index` entry. -/
theorem claimC8_missing_element_index_witness :
    validateBlocksAndExtractFees ⟨1, true⟩
        [(0, ⟨1, 1, [(1, "0xaa")], [("0xaa", 1)]⟩)]
        (fun i => if i = 0 then some 5 else none) (fun _ => 7)
        (fun _ is => some is.length) (fun b => b) [⟨0, "0xbb"⟩] =
      (Except.error (ValidatorError.store StoreError.getError), []) :=
  claimC8_missing_element_index ⟨1, true⟩
    [(0, ⟨1, 1, [(1, "0xaa")], [("0xaa", 1)]⟩)]
    (fun i => if i = 0 then some 5 else none) (fun _ => 7)
    (fun _ is => some is.length) (fun b => b) [⟨0, "0xbb"⟩]
    [(0, ⟨1, 1, [(1, "0xaa")], [("0xaa", 1)]⟩)] ⟨0, "0xbb"⟩
    ⟨1, 1, [(1, "0xaa")], [("0xaa", 1)]⟩
    (by decide) rfl (by decide) (by decide) (by decide) (by decide)
